import Mathlib

/-!
Verification development for the cnu_crawler notice-harvesting pipeline.

The definitions below are a shallow embedding of the Python source under
`src/cnu_crawler/` (spiders/notices.py, spiders/manual_linker.py,
spiders/colleges.py, storage/models.py, utils.py).  Pure helper functions of
the Python standard library (string methods, `urllib.parse`, `datetime`
parsing) are modelled at the level of behaviour exercised by the program:
each such model carries a doc comment stating the modelled subset.
Network fetching and CSS selection (aiohttp, BeautifulSoup) form the
input boundary of the embedding: the decoded JSON value and the four
selector result arrays are taken as inputs.
-/

namespace Cnu

/-- Python `\s` whitespace over the ASCII range (space, tab, LF, CR, VT, FF). -/
def pyWs (c : Char) : Bool :=
  c = ' ' || c = '\t' || c = '\n' || c = '\r' || c = '\x0b' || c = '\x0c'

/-- `str.strip()`: drop leading and trailing whitespace. -/
def pyStrip (s : String) : String :=
  ⟨(s.data.dropWhile pyWs).reverse.dropWhile pyWs |>.reverse⟩

/-- Collapse each run of whitespace to one space (the action of
`re.sub(r"\s+", " ", _)`); the flag records whether we are inside a run. -/
def collapseWsAux : Bool → List Char → List Char
  | _, [] => []
  | inWs, c :: cs =>
    if pyWs c then
      if inWs then collapseWsAux true cs else ' ' :: collapseWsAux true cs
    else c :: collapseWsAux false cs

/-- `utils.clean_text`: `re.sub(r"\s+", " ", txt).strip()`. -/
def cleanText (s : String) : String :=
  pyStrip ⟨collapseWsAux false s.data⟩

/-- Python `str.isdigit()` restricted to ASCII digits (all identifiers in this
program are ASCII): true iff the string is non-empty and all characters are digits. -/
def pyIsDigit (s : String) : Bool :=
  s ≠ "" && s.data.all Char.isDigit

/-- Python `int(s)` for a string of ASCII digits. -/
def pyInt (s : String) : Nat :=
  s.data.foldl (fun a c => a * 10 + (c.toNat - 48)) 0

/-- Lexicographic `≤` on code points, i.e. Python string comparison.  SQLite's
default BINARY collation on UTF-8 text induces the same order. -/
def chLe : List Char → List Char → Bool
  | [], _ => true
  | _ :: _, [] => false
  | a :: as, b :: bs => if a = b then chLe as bs else decide (a < b)

/-- Python `s <= t` on strings. -/
def pyStrLe (s t : String) : Bool := chLe s.data t.data

/-- Maximum of a list of strings under `pyStrLe`, starting from `h`. -/
def strMaxFrom (h : String) (t : List String) : String :=
  t.foldl (fun m x => if pyStrLe m x then x else m) h

/-! ## Dates: `utils.parse_date_flexible` -/

/-- Result of Python `datetime` construction: naive or offset-aware timestamp.
`tzSec` is the UTC offset in seconds when the parsed string carried one. -/
structure PyDateTime where
  year : Nat
  month : Nat
  day : Nat
  hour : Nat
  minute : Nat
  second : Nat
  micro : Nat
  tzSec : Option Int
deriving DecidableEq, Repr

def isLeap (y : Nat) : Bool :=
  (y % 4 = 0 && y % 100 ≠ 0) || y % 400 = 0

def daysInMonth (y m : Nat) : Nat :=
  if m = 2 then (if isLeap y then 29 else 28)
  else if m = 4 || m = 6 || m = 9 || m = 11 then 30
  else 31

/-- A directive of the `strptime` format strings used by the source. -/
inductive FTok
  | lit (c : Char)
  | y4   -- %Y : exactly four digits
  | y2   -- %y : exactly two digits, 00-68 ↦ 2000-2068, 69-99 ↦ 1969-1999
  | mon  -- %m : 1[0-2] | 0[1-9] | [1-9]
  | day  -- %d : 3[01] | [12]\d | 0[1-9] | [1-9]
  | hh   -- %H : 2[0-3] | [0-1]\d | \d
  | mss  -- %M and %S : [0-5]\d | \d
deriving Repr

structure StpState where
  year : Nat := 1900
  month : Nat := 1
  day : Nat := 1
  hour : Nat := 0
  minute : Nat := 0
  second : Nat := 0
deriving Repr

def digVal (c : Char) : Nat := c.toNat - 48

/-- Match one numeric directive against the head of the input, mirroring the
regular expressions CPython's `_strptime` uses for each directive.  In the
formats used by the source every numeric directive is followed by a non-digit
literal or the end of input, so this backtracking-free reading agrees with
the regex semantics. -/
def matchNum : FTok → List Char → Option (Nat × List Char)
  | .y4, a :: b :: c :: d :: rest =>
    if a.isDigit && b.isDigit && c.isDigit && d.isDigit then
      some (digVal a * 1000 + digVal b * 100 + digVal c * 10 + digVal d, rest)
    else none
  | .y2, a :: b :: rest =>
    if a.isDigit && b.isDigit then
      let v := digVal a * 10 + digVal b
      some (if v ≤ 68 then 2000 + v else 1900 + v, rest)
    else none
  | .mon, a :: b :: rest =>
    if a = '1' && b.isDigit && digVal b ≤ 2 then some (10 + digVal b, rest)
    else if a = '0' && b.isDigit && 1 ≤ digVal b then some (digVal b, rest)
    else if a.isDigit && 1 ≤ digVal a then some (digVal a, b :: rest)
    else none
  | .mon, [a] => if a.isDigit && 1 ≤ digVal a then some (digVal a, []) else none
  | .day, a :: b :: rest =>
    if a = '3' && b.isDigit && digVal b ≤ 1 then some (30 + digVal b, rest)
    else if (a = '1' || a = '2') && b.isDigit then some (digVal a * 10 + digVal b, rest)
    else if a = '0' && b.isDigit && 1 ≤ digVal b then some (digVal b, rest)
    else if a.isDigit && 1 ≤ digVal a then some (digVal a, b :: rest)
    else none
  | .day, [a] => if a.isDigit && 1 ≤ digVal a then some (digVal a, []) else none
  | .hh, a :: b :: rest =>
    if a = '2' && b.isDigit && digVal b ≤ 3 then some (20 + digVal b, rest)
    else if (a = '0' || a = '1') && b.isDigit then some (digVal a * 10 + digVal b, rest)
    else if a.isDigit then some (digVal a, b :: rest)
    else none
  | .hh, [a] => if a.isDigit then some (digVal a, []) else none
  | .mss, a :: b :: rest =>
    if a.isDigit && digVal a ≤ 5 && b.isDigit then some (digVal a * 10 + digVal b, rest)
    else if a.isDigit then some (digVal a, b :: rest)
    else none
  | .mss, [a] => if a.isDigit then some (digVal a, []) else none
  | _, _ => none

def runFmt : List FTok → List Char → StpState → Option StpState
  | [], [], st => some st
  | [], _ :: _, _ => none
  | .lit c :: fs, x :: rest, st => if x = c then runFmt fs rest st else none
  | .lit _ :: _, [], _ => none
  | .y4 :: fs, cs, st =>
    match matchNum .y4 cs with
    | some (v, rest) => runFmt fs rest { st with year := v }
    | none => none
  | .y2 :: fs, cs, st =>
    match matchNum .y2 cs with
    | some (v, rest) => runFmt fs rest { st with year := v }
    | none => none
  | .mon :: fs, cs, st =>
    match matchNum .mon cs with
    | some (v, rest) => runFmt fs rest { st with month := v }
    | none => none
  | .day :: fs, cs, st =>
    match matchNum .day cs with
    | some (v, rest) => runFmt fs rest { st with day := v }
    | none => none
  | .hh :: fs, cs, st =>
    match matchNum .hh cs with
    | some (v, rest) => runFmt fs rest { st with hour := v }
    | none => none
  | .mss :: .lit c :: .mss :: fs, cs, st =>
    -- the only places %M / %S occur are "%H:%M:%S" tails; handled pairwise
    match matchNum .mss cs with
    | some (v, rest) =>
      match rest with
      | x :: rest2 =>
        if x = c then
          match matchNum .mss rest2 with
          | some (w, rest3) => runFmt fs rest3 { st with minute := v, second := w }
          | none => none
        else none
      | [] => none
    | none => none
  | .mss :: fs, cs, st =>
    match matchNum .mss cs with
    | some (v, rest) => runFmt fs rest { st with minute := v }
    | none => none

/-- `datetime.strptime(s, fmt)` for one format: the whole string must be
consumed and the resulting fields must form a valid calendar date. -/
def strptime (fmt : List FTok) (s : List Char) : Option PyDateTime :=
  match runFmt fmt s {} with
  | none => none
  | some st =>
    if 1 ≤ st.year && st.year ≤ 9999 && 1 ≤ st.month && st.month ≤ 12 &&
        1 ≤ st.day && st.day ≤ daysInMonth st.year st.month then
      some ⟨st.year, st.month, st.day, st.hour, st.minute, st.second, 0, none⟩
    else none

def dateFmt (y : FTok) (sep : Char) : List FTok := [y, .lit sep, .mon, .lit sep, .day]

def timeHMS : List FTok := [.lit ' ', .hh, .lit ':', .mss, .lit ':', .mss]

def timeHM : List FTok := [.lit ' ', .hh, .lit ':', .mss]

/-- The `formats_to_try` list of `utils.parse_date_flexible`, in source order. -/
def formatsToTry : List (List FTok) :=
  [ dateFmt .y4 '-' ++ timeHMS, dateFmt .y4 '.' ++ timeHMS, dateFmt .y4 '/' ++ timeHMS,
    dateFmt .y4 '-' ++ timeHM, dateFmt .y4 '.' ++ timeHM, dateFmt .y4 '/' ++ timeHM,
    dateFmt .y4 '-', dateFmt .y4 '.', dateFmt .y4 '/',
    dateFmt .y2 '-' ++ timeHMS, dateFmt .y2 '.' ++ timeHMS, dateFmt .y2 '/' ++ timeHMS,
    dateFmt .y2 '-', dateFmt .y2 '.', dateFmt .y2 '/' ]

def tryFormats (s : List Char) : Option PyDateTime :=
  formatsToTry.foldl (fun acc fmt => acc.orElse (fun _ => strptime fmt s)) none

def digitsN : Nat → List Char → Option (Nat × List Char)
  | 0, rest => some (0, rest)
  | n + 1, c :: rest =>
    if c.isDigit then
      match digitsN n rest with
      | some (v, r) => some (digVal c * 10 ^ n + v, r)
      | none => none
    else none
  | _ + 1, [] => none

/-- Optional `:MM` continuation of an ISO time. -/
def isoMinSec : List Char → Option (Nat × Nat × Nat × List Char)
  | ':' :: rest =>
    match digitsN 2 rest with
    | some (mi, r1) =>
      if mi ≤ 59 then
        match r1 with
        | ':' :: r2 =>
          match digitsN 2 r2 with
          | some (se, r3) =>
            if se ≤ 59 then
              match r3 with
              | '.' :: r4 =>
                match digitsN 6 r4 with
                | some (us, r5) => some (mi, se, us, r5)
                | none =>
                  match digitsN 3 r4 with
                  | some (ms, r5) => some (mi, se, ms * 1000, r5)
                  | none => none
              | r4 => some (mi, se, 0, r4)
            else none
          | none => none
        | r2 => some (mi, 0, 0, r2)
      else none
    | none => none
  | rest => some (0, 0, 0, rest)

/-- `datetime.fromisoformat` as available on Python 3.7-3.10 (the compatibility
target the source comments name): a strict `YYYY-MM-DD`, optionally followed by
a single separator character and `HH[:MM[:SS[.fff[fff]]]]`, optionally followed
by a `±HH:MM` UTC offset.  The `Z` suffix is not accepted here; the caller
rewrites it beforehand. -/
def fromIso (s : String) : Option PyDateTime :=
  match s.data with
  | y1 :: y2c :: y3 :: y4c :: '-' :: m1 :: m2 :: '-' :: d1 :: d2 :: rest =>
    if [y1, y2c, y3, y4c, m1, m2, d1, d2].all Char.isDigit then
      let y := digVal y1 * 1000 + digVal y2c * 100 + digVal y3 * 10 + digVal y4c
      let mo := digVal m1 * 10 + digVal m2
      let d := digVal d1 * 10 + digVal d2
      if 1 ≤ y && 1 ≤ mo && mo ≤ 12 && 1 ≤ d && d ≤ daysInMonth y mo then
        match rest with
        | [] => some ⟨y, mo, d, 0, 0, 0, 0, none⟩
        | _sep :: trest =>
          match digitsN 2 trest with
          | some (hr, r1) =>
            if hr ≤ 23 then
              match isoMinSec r1 with
              | some (mi, se, us, r2) =>
                match r2 with
                | [] => some ⟨y, mo, d, hr, mi, se, us, none⟩
                | sg :: r3 =>
                  if sg = '+' || sg = '-' then
                    match r3 with
                    | oh1 :: oh2 :: ':' :: om1 :: om2 :: [] =>
                      if [oh1, oh2, om1, om2].all Char.isDigit then
                        let oh := digVal oh1 * 10 + digVal oh2
                        let om := digVal om1 * 10 + digVal om2
                        if oh ≤ 23 && om ≤ 59 then
                          let secs : Int := (oh * 3600 + om * 60 : Nat)
                          some ⟨y, mo, d, hr, mi, se, us,
                            some (if sg = '-' then -secs else secs)⟩
                        else none
                      else none
                    | _ => none
                  else none
              | none => none
            else none
          | none => none
      else none
    else none
  | _ => none

/-- `utils.parse_date_flexible`: for strings containing `T`, try
`fromisoformat` first (rewriting a trailing `Z` to `+00:00`); then the
`strptime` format list in order; finally `fromisoformat` on the original
(stripped) string. -/
def parseDateFlexible (dateStr : String) : Option PyDateTime :=
  if dateStr = "" then none
  else
    let s := pyStrip dateStr
    let isoFirst :=
      if s.data.contains 'T' then
        fromIso (if s.data.getLast? = some 'Z' then ⟨s.data.dropLast ++ ['+', '0', '0', ':', '0', '0']⟩ else s)
      else none
    match isoFirst with
    | some d => some d
    | none =>
      match tryFormats s.data with
      | some d => some d
      | none => fromIso s

/-! ## JSON values (the decoded result of `fetch_json`) -/

/-- A decoded Python/JSON value. -/
inductive JValue
  | jnull
  | jbool (b : Bool)
  | jnum (n : Int)
  | jstr (s : String)
  | jarr (xs : List JValue)
  | jobj (fields : List (String × JValue))
deriving Repr

def jLookup : List (String × JValue) → String → Option JValue
  | [], _ => none
  | (k, v) :: rest, key => if k = key then some v else jLookup rest key

/-- `item.get(key, dflt)` for a dict value.  A non-dict item would raise
`AttributeError` in the source (aborting the JSON path to the HTML fallback);
no theorem below exercises that corner and the default is returned for it. -/
def jGetD (item : JValue) (key : String) (dflt : JValue) : JValue :=
  match item with
  | .jobj fs => (jLookup fs key).getD dflt
  | _ => dflt

/-- Python truthiness of a decoded value. -/
def pyTruthy : JValue → Bool
  | .jnull => false
  | .jbool b => b
  | .jnum n => n ≠ 0
  | .jstr s => s ≠ ""
  | .jarr xs => !xs.isEmpty
  | .jobj fs => !fs.isEmpty

/-- Python `str()` of a decoded scalar.  Container reprs are not modelled
(no theorem applies `str` to a container). -/
def pyStr : JValue → String
  | .jstr s => s
  | .jnum n => toString n
  | .jbool b => if b then "True" else "False"
  | .jnull => "None"
  | .jarr _ => "[...]"
  | .jobj _ => "\x7b...\x7d"

/-- The string content of a value expected to be a string.  In the source a
truthy non-string `url` field would raise inside `urljoin` (aborting to the
HTML fallback); no theorem below exercises that corner. -/
def jStrVal : JValue → String
  | .jstr s => s
  | v => pyStr v

/-- `current_page_posts = data.get("posts") if isinstance(data, dict) else data`
followed by the `isinstance(current_page_posts, list)` shape check
(notices.py lines 95-100): `some items` when the shape check passes, `none`
when the source raises `ValueError` to force the HTML fallback. -/
def structuredPosts (data : JValue) : Option (List JValue) :=
  let current :=
    match data with
    | .jobj fs => (jLookup fs "posts").getD .jnull
    | v => v
  match current with
  | .jarr xs => some xs
  | _ => none

/-! ## `urllib.parse` models

Modelled subset: absolute `http(s)://` URLs and relative references made of
path, query and fragment; the `params` (`;`) component is never populated by
the program's inputs and is modelled as empty; percent-encoding does not
occur in the tokens the program manipulates and is not modelled. -/

structure UrlParts where
  scheme : String
  netloc : String
  path : String
  query : String
  fragment : String
deriving DecidableEq, Repr

/-- Split off `scheme://` when present. -/
def splitScheme : List Char → Option (List Char × List Char)
  | [] => none
  | ':' :: '/' :: '/' :: rest => some ([], rest)
  | '/' :: _ => none
  | '?' :: _ => none
  | '#' :: _ => none
  | c :: rest =>
    match splitScheme rest with
    | some (a, b) => some (c :: a, b)
    | none => none

def splitFragment (cs : List Char) : List Char × List Char :=
  (cs.takeWhile (· ≠ '#'), (cs.dropWhile (· ≠ '#')).drop 1)

def splitQuery (cs : List Char) : List Char × List Char :=
  (cs.takeWhile (· ≠ '?'), (cs.dropWhile (· ≠ '?')).drop 1)

def urlparse (s : String) : UrlParts :=
  let (beforeFrag, frag) := splitFragment s.data
  let (beforeQuery, query) := splitQuery beforeFrag
  match splitScheme beforeQuery with
  | some (scheme, rest) =>
    let netloc := rest.takeWhile (· ≠ '/')
    let path := rest.dropWhile (· ≠ '/')
    ⟨⟨scheme⟩, ⟨netloc⟩, ⟨path⟩, ⟨query⟩, ⟨frag⟩⟩
  | none => ⟨"", "", ⟨beforeQuery⟩, ⟨query⟩, ⟨frag⟩⟩

def urlunparse (u : UrlParts) : String :=
  (if u.scheme ≠ "" then u.scheme ++ "://" else "") ++ u.netloc ++ u.path ++
    (if u.query ≠ "" then "?" ++ u.query else "") ++
    (if u.fragment ≠ "" then "#" ++ u.fragment else "")

def splitOnChar (c : Char) : List Char → List (List Char)
  | [] => [[]]
  | x :: rest =>
    match splitOnChar c rest with
    | [] => [[]]
    | g :: gs => if x = c then [] :: g :: gs else (x :: g) :: gs

/-- `urllib.parse.parse_qsl` with default arguments: split the query on `&`,
keep only `key=value` pairs with a non-empty value. -/
def parseQsl (q : String) : List (String × String) :=
  (splitOnChar '&' q.data).filterMap fun pair =>
    let k := pair.takeWhile (· ≠ '=')
    let hasEq := pair.dropWhile (· ≠ '=')
    match hasEq with
    | [] => none
    | _ :: v => if v = [] then none else some (⟨k⟩, ⟨v⟩)

def addQsPair (k v : String) : List (String × List String) → List (String × List String)
  | [] => [(k, [v])]
  | (k', vs) :: rest =>
    if k' = k then (k', vs ++ [v]) :: rest else (k', vs) :: addQsPair k v rest

/-- `urllib.parse.parse_qs`: group the pairs by key, keys in first-occurrence
order (Python dict insertion order). -/
def parse_qs (q : String) : List (String × List String) :=
  (parseQsl q).foldl (fun acc p => addQsPair p.1 p.2 acc) []

/-- `dict.pop(k, None)`: remove the key, keeping the order of the rest. -/
def qsPop (d : List (String × List String)) (k : String) : List (String × List String) :=
  d.filter (fun p => p.1 ≠ k)

/-- `d[k] = v`: replace in place when the key exists, else append. -/
def qsSet (k : String) (v : List String) : List (String × List String) → List (String × List String)
  | [] => [(k, v)]
  | (k', vs) :: rest => if k' = k then (k, v) :: rest else (k', vs) :: qsSet k v rest

/-- `urllib.parse.urlencode(d, doseq=True)` for token-valued dicts
(no percent-quoting needed). -/
def urlencodeSeq (d : List (String × List String)) : String :=
  String.intercalate "&" (d.flatMap fun p => p.2.map fun v => p.1 ++ "=" ++ v)

/-- `urllib.parse.urljoin` for the reference shapes the program produces:
absolute URLs, protocol-relative `//`, root-relative `/...`, and plain
relative references resolved against the base's directory (no `.`/`..`
normalization; the program's inputs contain none). -/
def urljoin (base url : String) : String :=
  if url = "" then base
  else
    match splitScheme (splitQuery (splitFragment url.data).1).1 with
    | some _ => url
    | none =>
      let b := urlparse base
      match url.data with
      | '/' :: '/' :: _ => b.scheme ++ ":" ++ url
      | '/' :: _ =>
        let r := urlparse url
        urlunparse ⟨b.scheme, b.netloc, r.path, r.query, r.fragment⟩
      | _ =>
        let r := urlparse url
        let dir := ⟨(b.path.data.reverse.dropWhile (· ≠ '/')).reverse⟩
        urlunparse ⟨b.scheme, b.netloc, dir ++ r.path, r.query, r.fragment⟩

/-! ## `spiders/notices.py` -/

/-- The `Department` row (storage/models.py), restricted to the fields the
notices spider reads. -/
structure Department where
  id : Nat
  college_id : Nat
  code : String
  name : String
  url : String
  dept_type : String
  academic_notice_url_template : Option String
  undergrad_notice_url_template : Option String
  grad_notice_url_template : Option String
  specific_grad_keyword_notice_url : Option String
deriving Repr

/-- A `Notice` row (storage/models.py).  `crawled_at` is a wall-clock default
and is not modelled; `posted_at` is the parsed date. -/
structure NoticeRow where
  dept_id : Nat
  board : String
  post_id : String
  title : String
  url : String
  posted_at : PyDateTime
  source_display_name : Option String
deriving DecidableEq, Repr

/-- The composite identity covered by the `uix_unique_notice` constraint. -/
def rowIdent (r : NoticeRow) : Nat × String × String :=
  (r.dept_id, r.board, r.post_id)

def isPre : List Char → List Char → Bool
  | [], _ => true
  | _ :: _, [] => false
  | p :: ps, c :: cs => p = c && isPre ps cs

/-- `str.replace`: replace non-overlapping occurrences left to right.  The
first argument counts characters of a matched occurrence still to skip. -/
def replaceAux (pat rep : List Char) : Nat → List Char → List Char
  | _, [] => []
  | k + 1, _ :: cs => replaceAux pat rep k cs
  | 0, c :: cs =>
    if isPre pat (c :: cs) then rep ++ replaceAux pat rep (pat.length - 1) cs
    else c :: replaceAux pat rep 0 cs

def strReplace (s pat rep : String) : String :=
  ⟨replaceAux pat.data rep.data 0 s.data⟩

def countSub (tpl pat : String) : Nat :=
  ((List.range tpl.data.length).filter
    fun i => (tpl.data.drop i).take pat.data.length = pat.data).length

def hasSub (tpl pat : String) : Bool := countSub tpl pat ≠ 0

/-- `get_notice_list_url` (notices.py lines 29-78): pick the URL template for
the board type, substitute the page number for a `\x7bpage\x7d` or `\x7b\x7d`
placeholder, or else force a `page=N` query parameter onto the template.
An unknown board type and a missing template both return `None`.
(`.format(page)` with more than one bare placeholder would raise `IndexError`,
caught and turned into `None` by the handler at lines 76-78.) -/
def get_notice_list_url (dept : Department) (board_type : String) (page : Nat) : Option String :=
  let url_template : Option String :=
    if board_type = "academic" then dept.academic_notice_url_template
    else if board_type = "undergrad" then dept.undergrad_notice_url_template
    else if board_type = "grad" then dept.grad_notice_url_template
    else if board_type = "grad_keyword_found" then dept.specific_grad_keyword_notice_url
    else none
  match url_template with
  | none => none
  | some tpl =>
    if hasSub tpl "\x7bpage\x7d" then
      some (strReplace tpl "\x7bpage\x7d" (toString page))
    else if hasSub tpl "\x7b\x7d" then
      if countSub tpl "\x7b\x7d" = 1 then some (strReplace tpl "\x7b\x7d" (toString page))
      else none
    else
      let parsed := urlparse tpl
      let query_params := qsSet "page" [toString page] (parse_qs parsed.query)
      some (urlunparse ⟨parsed.scheme, parsed.netloc, parsed.path, urlencodeSeq query_params, ""⟩)

/-- The incremental-stop comparison applied to each record (notices.py lines
113-116 and 172-175): numeric when both the record id and the cursor are
all-digit strings, else Python string comparison (guarded by non-emptiness). -/
def stopsAtCursor (post_id_str last_post_id_db : String) : Bool :=
  if pyIsDigit post_id_str && pyIsDigit last_post_id_db then
    pyInt post_id_str ≤ pyInt last_post_id_db
  else
    pyStrLe post_id_str last_post_id_db && post_id_str ≠ ""

/-- `parse_date_flexible(date_str)` as called on a decoded JSON field: the
source returns `None` for a non-string argument (utils.py line 27). -/
def parseDateJ : JValue → Option PyDateTime
  | .jstr s => parseDateFlexible s
  | _ => none

def mkSourceName (dept : Department) (board_type : String) : Option String :=
  if board_type = "grad_keyword_found" then some (dept.name ++ " 대학원") else none

/-- The JSON branch of `_parse_notice_page_content` (notices.py lines 103-127):
scan the decoded items in listing order; skip an item missing a truthy
id/title/url/date; stop the whole scan at the first id not newer than the
cursor; skip an item whose date fails to parse; keep the rest. -/
def jsonScan (dept : Department) (board_type list_url last : String) :
    List JValue → List NoticeRow × Bool
  | [] => ([], false)
  | item :: rest =>
    let post_id_str := pyStrip (pyStr (jGetD item "id" (.jstr "")))
    let title := cleanText (pyStr (jGetD item "title" (.jstr "")))
    let raw_url := jGetD item "url" (.jstr "")
    let date_str := jGetD item "date" (.jstr "")
    if !(post_id_str ≠ "" && title ≠ "" && pyTruthy raw_url && pyTruthy date_str : Bool) then
      jsonScan dept board_type list_url last rest
    else if stopsAtCursor post_id_str last then ([], true)
    else
      match parseDateJ date_str with
      | none => jsonScan dept board_type list_url last rest
      | some parsed_date =>
        let full_url := urljoin list_url (jStrVal raw_url)
        let (tl, s) := jsonScan dept board_type list_url last rest
        (⟨dept.id, board_type, post_id_str, title, full_url, parsed_date,
          mkSourceName dept board_type⟩ :: tl, s)

def matchKeyEq : List Char → List Char → Option (List Char)
  | [], cs => some cs
  | k :: ks, c :: cs => if c.toLower = k then matchKeyEq ks cs else none
  | _ :: _, [] => none

def tryKeyAt (cs : List Char) (key : String) : Option String :=
  match matchKeyEq key.data cs with
  | some rest =>
    let ds := rest.takeWhile Char.isDigit
    if ds.isEmpty then none else some ⟨ds⟩
  | none => none

def tryKeysAt (cs : List Char) : Option String :=
  (tryKeyAt cs "idx=").orElse fun _ =>
  (tryKeyAt cs "id=").orElse fun _ =>
  (tryKeyAt cs "no=").orElse fun _ =>
  (tryKeyAt cs "seq=").orElse fun _ =>
  tryKeyAt cs "docsn="

/-- `re.search(r'(?:idx|id|no|seq|docSn)=(\d+)', link, re.I)` (notices.py line
165): the digits of the leftmost case-insensitive match, alternatives tried
in source order at each position. -/
def findIdInUrl : List Char → Option String
  | [] => none
  | c :: rest =>
    match tryKeysAt (c :: rest) with
    | some ds => some ds
    | none => findIdInUrl rest

/-- Id recovery of the HTML branch (notices.py lines 163-170): use the cleaned
cell when it is all digits, else the first id-like number in the link, else
drop the record. -/
def recoverHtmlId (cell link : String) : Option String :=
  let post_id_str := cleanText cell
  if pyIsDigit post_id_str then some post_id_str
  else findIdInUrl link.data

/-- The HTML branch of `_parse_notice_page_content` (notices.py lines 144-192)
after the selector arrays have been zipped and truncated to the shortest
length: recover an id or skip; stop the whole scan at the first id not newer
than the cursor; skip a record whose date fails to parse; keep the rest. -/
def htmlScan (dept : Department) (board_type list_url last : String) :
    List (String × String × String × String) → List NoticeRow × Bool
  | [] => ([], false)
  | (cell, titleCell, link, dateCell) :: rest =>
    match recoverHtmlId cell link with
    | none => htmlScan dept board_type list_url last rest
    | some post_id_str =>
      if stopsAtCursor post_id_str last then ([], true)
      else
        match parseDateFlexible dateCell with
        | none => htmlScan dept board_type list_url last rest
        | some parsed_date =>
          let (tl, s) := htmlScan dept board_type list_url last rest
          (⟨dept.id, board_type, post_id_str, cleanText titleCell, urljoin list_url link,
            parsed_date, mkSourceName dept board_type⟩ :: tl, s)

/-- The four selector result arrays of the HTML fallback
(`td.no`, `td.title a`, `td.title a@href`, `td.date`). -/
structure HtmlArrays where
  ids_html : List String
  titles_html : List String
  links_html : List String
  dates_html : List String
deriving Repr

def htmlRows (h : HtmlArrays) : List (String × String × String × String) :=
  h.ids_html.zip (h.titles_html.zip (h.links_html.zip h.dates_html))

/-- `_parse_notice_page_content` (notices.py lines 81-208).  `jsonRes` is the
outcome of `fetch_json` (`none` = transport/decode failure), `htmlRes` the
outcome of `fetch_text` + selection (`none` = transport failure).  The JSON
branch runs when the fetch succeeded and the decoded value passes the list
shape check; any failure before the item loop falls through to the HTML
branch with an empty accumulator. -/
def parseNoticePageContent (dept : Department) (board_type list_url last : String)
    (jsonRes : Option JValue) (htmlRes : Option HtmlArrays) : List NoticeRow × Bool :=
  let htmlFallback : List NoticeRow × Bool :=
    match htmlRes with
    | none => ([], false)
    | some h => htmlScan dept board_type list_url last (htmlRows h)
  match jsonRes with
  | some data =>
    match structuredPosts data with
    | some items => jsonScan dept board_type list_url last items
    | none => htmlFallback
  | none => htmlFallback

/-- `sess.query(Notice).filter_by(dept_id=…, board=…).order_by(Notice.post_id.desc()).first()`
(notices.py lines 219-223): the maximum stored `post_id` of the pair under
SQLite's BINARY collation (code-point order on the TEXT column), or the
sentinel `"0"` when the pair has no rows. -/
def load_last_post_id (db : List NoticeRow) (dept_id : Nat) (board : String) : String :=
  match (db.filter fun r => r.dept_id = dept_id && r.board = board).map (·.post_id) with
  | [] => "0"
  | h :: t => strMaxFrom h t

/-- `sess.bulk_insert_mappings(Notice, posts_to_save); sess.commit()` inside
`try/except` (notices.py lines 245-253): the batch is committed whole, and a
`uix_unique_notice` violation — against an existing row or inside the batch —
rolls the whole batch back.  Returns the new table and the inserted count. -/
def bulkInsertNotices (db batch : List NoticeRow) : List NoticeRow × Nat :=
  if (batch.map rowIdent).Nodup ∧ ∀ b ∈ batch, ∀ r ∈ db, rowIdent b ≠ rowIdent r then
    (db ++ batch, batch.length)
  else (db, 0)

/-- `crawl_board` (notices.py lines 211-258): load the cursor, build the page-1
listing URL (the function crawls only the first page), extract, and persist a
non-empty batch.  Returns the new table, the list of listing URLs requested,
and the inserted count. -/
def crawl_board (dept : Department) (board_type : String) (db : List NoticeRow)
    (jsonRes : Option JValue) (htmlRes : Option HtmlArrays) :
    List NoticeRow × List String × Nat :=
  let page := 1
  let last_post_id_db := load_last_post_id db dept.id board_type
  match get_notice_list_url dept board_type page with
  | none => (db, [], 0)
  | some list_url =>
    let scanned := parseNoticePageContent dept board_type list_url last_post_id_db jsonRes htmlRes
    let posts_to_save := scanned.1
    if posts_to_save.isEmpty then (db, [list_url], 0)
    else
      let ins := bulkInsertNotices db posts_to_save
      (ins.1, [list_url], ins.2)

/-! ## `spiders/manual_linker.py` -/

/-- A Python exception class raised by the modelled code. -/
inductive PyError
  | typeError   -- subscripting an `int`
  | nameError   -- evaluating an undefined name
deriving DecidableEq, Repr

/-- Python `hash` returns an `int`; its value never matters below because every
use immediately subscripts it. -/
def pyHash (_s : String) : Int := 0

/-- Subscripting (slicing) an `int` raises `TypeError: 'int' object is not
subscriptable`. -/
def intSlice (_n : Int) (_k : Nat) : Except PyError String := .error .typeError

/-- `_parse_txt_line` (manual_linker.py lines 14-25): split on commas, strip
parts; a dash in the second field becomes `None`; require exactly three parts
with a truthy college name and URL. -/
def parseTxtLine (line : String) : Option (String × Option String × String) :=
  let parts := (splitOnChar ',' line.data).map fun p => pyStrip ⟨p⟩
  match parts with
  | [p0, p1, p2] =>
    let college_name := cleanText p0
    let dept_or_grad_name : Option String := if p1 ≠ "-" then some (cleanText p1) else none
    if college_name ≠ "" && p2 ≠ "" then some (college_name, dept_or_grad_name, p2)
    else none
  | _ => none

/-- Python truthiness of `dept_name_txt_opt` (an `Optional[str]`). -/
def optFalsy : Option String → Bool
  | none => true
  | some s => s = ""

/-- `_create_url_template_from_link` (manual_linker.py lines 28-71): parse the
URL, drop every known pagination parameter from the query, re-encode the rest,
rebuild the URL without fragment, and append `page=\x7bpage\x7d` with the
separator the rebuilt URL calls for. -/
def _create_url_template_from_link (link_url : String) : String :=
  let parsed_url := urlparse link_url
  let query_params :=
    ["page", "p", "pageNo", "pageNum", "pg", "start", "currentPage"].foldl
      qsPop (parse_qs parsed_url.query)
  let new_query_string := urlencodeSeq query_params
  let base_url_for_template :=
    urlunparse ⟨parsed_url.scheme, parsed_url.netloc, parsed_url.path, new_query_string, ""⟩
  if base_url_for_template.data.contains '?' && base_url_for_template.data.getLast? ≠ some '?' then
    base_url_for_template ++ "&page=\x7bpage\x7d"
  else if !base_url_for_template.data.contains '?' then
    base_url_for_template ++ "?page=\x7bpage\x7d"
  else
    base_url_for_template ++ "page=\x7bpage\x7d"

/-- `_generate_department_code_from_txt` (manual_linker.py lines 74-84).  The
final component slices `hash(notice_url + dept_name_or_placeholder)` — an
`int` — so the function unconditionally raises `TypeError` before returning. -/
def _generate_department_code_from_txt (college_code dept_name_or_placeholder notice_url : String) :
    Except PyError String := do
  let name_part : List Char := (dept_name_or_placeholder.toLower.data.filter fun c => !pyWs c)
  let name_alnum : String := ⟨(name_part.filter fun c => c.isLower || c.isDigit).take 15⟩
  let parsed_url := urlparse notice_url
  let lastSeg := (parsed_url.path.data.reverse.takeWhile (· ≠ '/')).reverse
  let path_end_part : String := if lastSeg.isEmpty then "na" else ⟨lastSeg.take 10⟩
  let base_code := ⟨college_code.data.take 10⟩ ++ "_" ++ name_alnum ++ "_" ++ path_end_part
  let hashPart ← intSlice (pyHash (notice_url ++ dept_name_or_placeholder)) 6
  pure ⟨("txt_dept_" ++ base_code ++ "_" ++ hashPart).data.take 50⟩

/-- A `College` row (storage/models.py). -/
structure CollegeRow where
  id : Nat
  code : String
  name : String
  url : String
  college_type : String
deriving DecidableEq, Repr

/-- Target-template-field selection (manual_linker.py lines 164-172).  When
`dept_name_to_use` does not contain `대학원`, the guard evaluates `dept_obj` —
an undefined name (the row variable is `department_obj`) — raising
`NameError`. -/
def chooseTargetField (dept_name_to_use notice_link_txt : String) : Except PyError String := do
  let target ←
    if hasSub dept_name_to_use "대학원" then pure "grad_notice_url_template"
    else (.error .nameError : Except PyError String)
  if hasSub dept_name_to_use "학사" || hasSub notice_link_txt.toLower "academic" ||
      hasSub notice_link_txt.toLower "haksa" then
    pure "academic_notice_url_template"
  else
    pure target

def setTplField (d : Department) (field tpl : String) : Department :=
  if field = "grad_notice_url_template" then { d with grad_notice_url_template := some tpl }
  else if field = "academic_notice_url_template" then { d with academic_notice_url_template := some tpl }
  else { d with undergrad_notice_url_template := some tpl }

/-- Lines 151-201 of manual_linker.py: look the Department up by
(college_id, generated code), choose the target template field, and update the
found row or insert a new one. -/
def manualLinkerAssign (depts : List Department) (college_obj : CollegeRow)
    (dept_name_to_use dept_code_to_use dept_url_to_use dept_type_to_use notice_link_txt : String) :
    Except PyError (List Department) := do
  let url_template := _create_url_template_from_link notice_link_txt
  let target ← chooseTargetField dept_name_to_use notice_link_txt
  match depts.find? fun d => d.college_id = college_obj.id && d.code = dept_code_to_use with
  | some department_obj =>
    let updated := setTplField { department_obj with
      name := dept_name_to_use, url := dept_url_to_use, dept_type := dept_type_to_use } target url_template
    pure (depts.map fun d =>
      if d.college_id = college_obj.id && d.code = dept_code_to_use then updated else d)
  | none =>
    pure (depts ++ [setTplField
      ⟨0, college_obj.id, dept_code_to_use, dept_name_to_use, dept_url_to_use, dept_type_to_use,
        none, none, none, none⟩ target url_template])

/-- `"/" + parsed.path.strip('/').split('/')[0] if parsed.path.strip('/') else "/"`. -/
def firstPathSeg (path : String) : String :=
  let stripped := (path.data.dropWhile (· = '/')).reverse.dropWhile (· = '/') |>.reverse
  if stripped.isEmpty then "/" else "/" ++ (⟨stripped.takeWhile (· ≠ '/')⟩ : String)

/-- One iteration of the line loop of `process_manual_links_file`
(manual_linker.py lines 103-201) over an in-memory table state. -/
def processManualLine (colleges : List CollegeRow) (depts : List Department) (rawLine : String) :
    Except PyError (List Department) :=
  let line := pyStrip rawLine
  if line = "" || line.data.head? = some '#' then .ok depts
  else
    match parseTxtLine line with
    | none => .ok depts
    | some (college_name_txt, dept_name_txt_opt, notice_link_txt) =>
      match colleges.find? fun c => c.name = college_name_txt with
      | none => .ok depts
      | some college_obj => do
        let nameUrlType :=
          if optFalsy dept_name_txt_opt then
            (college_obj.name ++ " (대표)", college_obj.url, college_obj.college_type ++ "_main_notice")
          else
            let parsed_notice_link := urlparse notice_link_txt
            (dept_name_txt_opt.getD "",
              urlunparse ⟨parsed_notice_link.scheme, parsed_notice_link.netloc,
                firstPathSeg parsed_notice_link.path, "", ""⟩,
              "txt_manual")
        let dept_code_to_use ←
          _generate_department_code_from_txt college_obj.code nameUrlType.1 notice_link_txt
        manualLinkerAssign depts college_obj nameUrlType.1 dept_code_to_use
          nameUrlType.2.1 nameUrlType.2.2 notice_link_txt

/-! ## `spiders/colleges.py`: `_save_colleges_to_db` -/

/-- The candidate dict built by the discovery strategies; `college_type` is
read with `c_data.get("college_type", …)` so it is optional. -/
structure CollegeCand where
  code : String
  name : String
  url : String
  college_type : Option String
deriving Repr

/-- The update branch of `_save_colleges_to_db` (colleges.py lines 44-58):
write each field only when the candidate value differs from the stored one;
`college_type` falls back to the stored value when the candidate lacks it.
Returns the row and the list of fields actually written. -/
def updateCollege (existing : CollegeRow) (c : CollegeCand) : CollegeRow × List String :=
  let s1 := if existing.name ≠ c.name then
      ({ existing with name := c.name }, ["name"]) else (existing, [])
  let s2 := if s1.1.url ≠ c.url then
      ({ s1.1 with url := c.url }, s1.2 ++ ["url"]) else s1
  let candType := c.college_type.getD s2.1.college_type
  if s2.1.college_type ≠ candType then
    ({ s2.1 with college_type := candType }, s2.2 ++ ["college_type"])
  else s2

/-- One candidate of `_save_colleges_to_db` (colleges.py lines 41-63): load by
unique `code`; update in place when found, else insert a new row (SQLAlchemy
fills defaults: missing `college_type` becomes "normal_college").  Returns the
table, the written-field log, and whether a row was inserted. -/
def saveOneCollege (db : List CollegeRow) (nextId : Nat) (c : CollegeCand) :
    List CollegeRow × List String × Bool :=
  match db.find? fun r => r.code = c.code with
  | some existing =>
    let u := updateCollege existing c
    (db.map fun r => if r.code = c.code then u.1 else r, u.2, false)
  | none =>
    (db ++ [⟨nextId, c.code, c.name, c.url, c.college_type.getD "normal_college"⟩], [], true)

/-- `_save_colleges_to_db` (colleges.py lines 32-73) over an in-memory table. -/
def _save_colleges_to_db (db : List CollegeRow) (colleges_data : List CollegeCand) : List CollegeRow :=
  colleges_data.foldl
    (fun acc c => (saveOneCollege acc ((acc.map (·.id)).foldr max 0 + 1) c).1) db

/-! ## Spec-side definitions for refinement comparison -/

/-- The spec's §4.4 best-effort ordering, written from the spec's words:
numeric when both values parse as integers, otherwise string comparison. -/
def bestEffortLe (a b : String) : Bool :=
  if pyIsDigit a && pyIsDigit b then pyInt a ≤ pyInt b else pyStrLe a b

/-- Written from the spec's words (§4.4 step 1 / Data Model "Harvest Cursor"):
the maximum persisted `post_id` under the best-effort ordering, `none` when no
record exists. -/
def specBestEffortMax : List String → Option String
  | [] => none
  | h :: t => some (t.foldl (fun m x => if bestEffortLe m x then x else m) h)

/-! ## Groundwork lemmas -/

theorem chLe_refl : ∀ l : List Char, chLe l l = true
  | [] => rfl
  | c :: cs => by simp [chLe, chLe_refl cs]

theorem chLe_total : ∀ a b : List Char, chLe a b = true ∨ chLe b a = true
  | [], _ => .inl rfl
  | _ :: _, [] => .inr rfl
  | a :: as, b :: bs => by
    by_cases h : a = b
    · subst h
      simpa [chLe] using chLe_total as bs
    · rcases lt_trichotomy a b with hlt | heq | hgt
      · exact .inl (by simp [chLe, h, hlt])
      · exact absurd heq h
      · exact .inr (by simp [chLe, Ne.symm h, hgt])

theorem chLe_trans : ∀ a b c : List Char,
    chLe a b = true → chLe b c = true → chLe a c = true
  | [], _, _, _, _ => rfl
  | _ :: _, [], _, hab, _ => by simp [chLe] at hab
  | _ :: _, _ :: _, [], _, hbc => by simp [chLe] at hbc
  | a :: as, b :: bs, c :: cs, hab, hbc => by
    by_cases h1 : a = b
    · subst h1
      by_cases h2 : a = c
      · subst h2
        simp only [chLe, if_pos rfl] at *
        exact chLe_trans as bs cs hab hbc
      · simpa [chLe, h2] using (by simpa [chLe, h2] using hbc : decide (a < c) = true)
    · by_cases h2 : b = c
      · subst h2
        simpa [chLe, h1] using (by simpa [chLe, h1] using hab : decide (a < b) = true)
      · simp only [chLe, if_neg h1, decide_eq_true_eq] at hab
        simp only [chLe, if_neg h2, decide_eq_true_eq] at hbc
        have : a < c := lt_trans hab hbc
        simp [chLe, ne_of_lt this, this]

theorem pyStrLe_refl (s : String) : pyStrLe s s = true := chLe_refl s.data

theorem pyStrLe_total (s t : String) : pyStrLe s t = true ∨ pyStrLe t s = true :=
  chLe_total s.data t.data

theorem pyStrLe_trans {s t u : String} (h1 : pyStrLe s t = true) (h2 : pyStrLe t u = true) :
    pyStrLe s u = true :=
  chLe_trans s.data t.data u.data h1 h2

theorem strMaxFrom_spec : ∀ (t : List String) (h : String),
    (strMaxFrom h t = h ∨ strMaxFrom h t ∈ t) ∧ pyStrLe h (strMaxFrom h t) = true ∧
      ∀ x ∈ t, pyStrLe x (strMaxFrom h t) = true
  | [], h => ⟨.inl rfl, pyStrLe_refl h, by simp⟩
  | x :: t, h => by
    have ih := strMaxFrom_spec t (if pyStrLe h x then x else h)
    have hstep : strMaxFrom h (x :: t) = strMaxFrom (if pyStrLe h x then x else h) t := rfl
    rw [hstep]
    refine ⟨?_, ?_, ?_⟩
    · rcases ih.1 with hh | hm
      · rw [hh]
        by_cases hle : pyStrLe h x = true
        · simp [hle]
        · simp [hle]
      · exact .inr (by simp [hm])
    · by_cases hle : pyStrLe h x = true
      · exact pyStrLe_trans hle (by simpa [hle] using ih.2.1)
      · simpa [hle] using ih.2.1
    · intro y hy
      rcases List.mem_cons.mp hy with hyx | hyt
      · subst hyx
        by_cases hle : pyStrLe h y = true
        · simpa [hle] using ih.2.1
        · have : pyStrLe y h = true := (pyStrLe_total h y).resolve_left hle
          exact pyStrLe_trans this (by simpa [hle] using ih.2.1)
      · exact ih.2.2 y hyt

/-! ## Claim C2: the loaded cursor -/

def c2date : PyDateTime := ⟨2024, 5, 1, 0, 0, 0, 0, none⟩

/-- Two persisted records for the pair (1, "undergrad") with ids 99 and 100. -/
def c2db : List NoticeRow :=
  [⟨1, "undergrad", "99", "t99", "u99", c2date, none⟩,
   ⟨1, "undergrad", "100", "t100", "u100", c2date, none⟩]

/-- C2 counterexample: with persisted post_ids 99 and 100 for the pair, the
code loads cursor "99" (the SQLite string-order maximum), while the claimed
best-effort maximum of the persisted ids is "100". -/
theorem c2_loaded_cursor_counterexample :
    load_last_post_id c2db 1 "undergrad" = "99" ∧
    specBestEffortMax ((c2db.filter fun r => r.dept_id = 1 && r.board = "undergrad").map
      (·.post_id)) = some "100" ∧
    ("99" : String) ≠ "100" := by
  refine ⟨by rfl, by rfl, by decide⟩

/-- C2 amended: at the start of a harvest of a pair, the loaded cursor is the
maximum of the already-persisted post_id values of that pair under code-point
string ordering (the order SQLite's `ORDER BY post_id DESC` uses on the TEXT
column), and is the sentinel "0" when no record is persisted for the pair. -/
theorem c2_loaded_cursor_amended (db : List NoticeRow) (did : Nat) (bt : String) :
    ((db.filter fun r => r.dept_id = did && r.board = bt).map (·.post_id) = [] →
      load_last_post_id db did bt = "0") ∧
    ((db.filter fun r => r.dept_id = did && r.board = bt).map (·.post_id) ≠ [] →
      load_last_post_id db did bt ∈
        (db.filter fun r => r.dept_id = did && r.board = bt).map (·.post_id) ∧
      ∀ s ∈ (db.filter fun r => r.dept_id = did && r.board = bt).map (·.post_id),
        pyStrLe s (load_last_post_id db did bt) = true) := by
  unfold load_last_post_id
  cases hl : (db.filter fun r => r.dept_id = did && r.board = bt).map (·.post_id) with
  | nil => exact ⟨fun _ => rfl, fun h => absurd rfl h⟩
  | cons h t =>
    refine ⟨fun hc => by simp at hc, fun _ => ?_⟩
    have hs := strMaxFrom_spec t h
    constructor
    · show strMaxFrom h t ∈ h :: t
      rcases hs.1 with he | hm
      · rw [he]; exact List.mem_cons_self _ _
      · exact List.mem_cons_of_mem _ hm
    · intro s hsmem
      show pyStrLe s (strMaxFrom h t) = true
      rcases List.mem_cons.mp hsmem with rfl | hmem
      · exact hs.2.1
      · exact hs.2.2 s hmem

/-- C2 witness: the amended theorem applied to the concrete two-row table. -/
theorem c2_loaded_cursor_witness :
    load_last_post_id c2db 1 "undergrad" ∈
      (c2db.filter fun r => r.dept_id = 1 && r.board = "undergrad").map (·.post_id) ∧
    ∀ s ∈ (c2db.filter fun r => r.dept_id = 1 && r.board = "undergrad").map (·.post_id),
      pyStrLe s (load_last_post_id c2db 1 "undergrad") = true :=
  (c2_loaded_cursor_amended c2db 1 "undergrad").2 (by decide)

/-! ## Claim C5: the manual override line -/

/-- The College table holding the Law College row the override line names. -/
def lawColleges : List CollegeRow :=
  [⟨1, "coll_law", "Law College", "https://law.x", "normal_college"⟩]

/-- C5: processing the override line `Law College,-,https://law.x/notice?page=3`
does not complete: `_generate_department_code_from_txt` slices the `int`
returned by `hash(...)`, so every call raises `TypeError` and the line
processing propagates it before any template is stored. -/
theorem c5_manual_line_type_error :
    (∀ a b c, _generate_department_code_from_txt a b c = Except.error PyError.typeError) ∧
    processManualLine lawColleges [] "Law College,-,https://law.x/notice?page=3" =
      Except.error PyError.typeError := by
  exact ⟨fun a b c => rfl, by rfl⟩

/-! ## Claim C6: template generation -/

/-- C6: the template generator strips the pagination parameter, keeps the rest
of the query in order, and appends a `page=\x7bpage\x7d` placeholder; shown on
the two specified inputs and on a third input exercising a different
pagination parameter name with surrounding parameters. -/
theorem c6_template_generation :
    _create_url_template_from_link "https://example.com/notice?page=3&cat=a" =
      "https://example.com/notice?cat=a&page=\x7bpage\x7d" ∧
    _create_url_template_from_link "https://example.com/notice" =
      "https://example.com/notice?page=\x7bpage\x7d" ∧
    _create_url_template_from_link "https://example.com/notice?cat=a&pageNo=7&x=1" =
      "https://example.com/notice?cat=a&x=1&page=\x7bpage\x7d" := by
  exact ⟨rfl, rfl, rfl⟩

/-! ## Claim C9: Institution upsert -/

/-- C9: upserting a candidate whose code already exists with a changed name
rewrites only the name of the found row in place: the table keeps its length
(no insert), and the field-write log of the step is exactly `["name"]` — the
unchanged url and college_type are not rewritten. -/
theorem c9_upsert_in_place (db : List CollegeRow) (c : CollegeCand) (r : CollegeRow)
    (hfind : db.find? (fun row => row.code = c.code) = some r)
    (hname : r.name ≠ c.name) (hurl : r.url = c.url)
    (htype : c.college_type = some r.college_type) :
    _save_colleges_to_db db [c] =
      db.map (fun row => if row.code = c.code then { r with name := c.name } else row) ∧
    (_save_colleges_to_db db [c]).length = db.length ∧
    ∀ n, (saveOneCollege db n c).2 = (["name"], false) := by
  have hupd : updateCollege r c = ({ r with name := c.name }, ["name"]) := by
    simp [updateCollege, hname, ← hurl, htype]
  have hsave : ∀ n, saveOneCollege db n c =
      (db.map (fun row => if row.code = c.code then { r with name := c.name } else row),
        ["name"], false) := by
    intro n
    simp [saveOneCollege, hfind, hupd]
  refine ⟨?_, ?_, fun n => by rw [hsave n]⟩
  · show (saveOneCollege db _ c).1 = _
    rw [hsave]
  · show ((saveOneCollege db _ c).1).length = _
    rw [hsave]
    exact List.length_map _ _

def c9db : List CollegeRow := [⟨1, "c1", "Old", "u", "t"⟩]

def c9cand : CollegeCand := ⟨"c1", "New", "u", some "t"⟩

/-- C9 witness: the upsert theorem applied to a one-row table with a changed
name. -/
theorem c9_upsert_witness :
    _save_colleges_to_db c9db [c9cand] =
      c9db.map (fun row => if row.code = c9cand.code then
        { (⟨1, "c1", "Old", "u", "t"⟩ : CollegeRow) with name := c9cand.name } else row) ∧
    (_save_colleges_to_db c9db [c9cand]).length = c9db.length ∧
    ∀ n, (saveOneCollege c9db n c9cand).2 = (["name"], false) :=
  c9_upsert_in_place c9db c9cand ⟨1, "c1", "Old", "u", "t"⟩ (by rfl) (by decide) rfl rfl

/-! ## Claim C10: all-digit ids on the HTML path -/

theorem tryKeyAt_digits (cs : List Char) (key s : String) (h : tryKeyAt cs key = some s) :
    pyIsDigit s = true := by
  unfold tryKeyAt at h
  cases hm : matchKeyEq key.data cs with
  | none => rw [hm] at h; cases h
  | some rest =>
    rw [hm] at h
    simp only at h
    by_cases he : (rest.takeWhile Char.isDigit).isEmpty
    · rw [if_pos he] at h; cases h
    · rw [if_neg he] at h
      cases h
      have hall : ∀ x ∈ rest.takeWhile Char.isDigit, Char.isDigit x = true :=
        fun x hx => List.mem_takeWhile_imp hx
      have hne : rest.takeWhile Char.isDigit ≠ [] := by
        simpa [List.isEmpty_iff] using he
      simp only [pyIsDigit, Bool.and_eq_true, decide_eq_true_eq, List.all_eq_true]
      exact ⟨by simpa [String.ext_iff] using hne, hall⟩

theorem tryKeysAt_digits (cs : List Char) (s : String) (h : tryKeysAt cs = some s) :
    pyIsDigit s = true := by
  unfold tryKeysAt at h
  cases h1 : tryKeyAt cs "idx=" with
  | some v => rw [h1] at h; simp [Option.orElse] at h; exact h ▸ tryKeyAt_digits cs "idx=" v h1
  | none =>
  rw [h1] at h; simp only [Option.orElse, Option.none_orElse] at h
  cases h2 : tryKeyAt cs "id=" with
  | some v => rw [h2] at h; simp [Option.orElse] at h; exact h ▸ tryKeyAt_digits cs "id=" v h2
  | none =>
  rw [h2] at h; simp only [Option.orElse, Option.none_orElse] at h
  cases h3 : tryKeyAt cs "no=" with
  | some v => rw [h3] at h; simp [Option.orElse] at h; exact h ▸ tryKeyAt_digits cs "no=" v h3
  | none =>
  rw [h3] at h; simp only [Option.orElse, Option.none_orElse] at h
  cases h4 : tryKeyAt cs "seq=" with
  | some v => rw [h4] at h; simp [Option.orElse] at h; exact h ▸ tryKeyAt_digits cs "seq=" v h4
  | none =>
  rw [h4] at h; simp only [Option.orElse, Option.none_orElse] at h
  exact tryKeyAt_digits cs "docsn=" s h

theorem findIdInUrl_digits : ∀ (cs : List Char) (s : String), findIdInUrl cs = some s →
    pyIsDigit s = true
  | [], _, h => by cases h
  | c :: rest, s, h => by
    unfold findIdInUrl at h
    cases hk : tryKeysAt (c :: rest) with
    | some ds => rw [hk] at h; cases h; exact tryKeysAt_digits _ _ hk
    | none => rw [hk] at h; exact findIdInUrl_digits rest s h

theorem recoverHtmlId_digits (cell link pid : String) (h : recoverHtmlId cell link = some pid) :
    pyIsDigit pid = true := by
  unfold recoverHtmlId at h
  by_cases hd : pyIsDigit (cleanText cell) = true
  · rw [if_pos hd] at h; cases h; exact hd
  · rw [if_neg hd] at h; exact findIdInUrl_digits link.data pid h

theorem htmlScan_ids_digit (dept : Department) (bt lu last : String) :
    ∀ (rows : List (String × String × String × String)) (r : NoticeRow),
      r ∈ (htmlScan dept bt lu last rows).1 → pyIsDigit r.post_id = true
  | [], r, h => by simp [htmlScan] at h
  | (cell, t, link, date) :: rest, r, h => by
    rw [htmlScan] at h
    cases hid : recoverHtmlId cell link with
    | none =>
      rw [hid] at h
      exact htmlScan_ids_digit dept bt lu last rest r h
    | some pid =>
      rw [hid] at h
      simp only at h
      by_cases hstop : stopsAtCursor pid last = true
      · rw [if_pos hstop] at h; simp at h
      · rw [if_neg hstop] at h
        cases hpd : parseDateFlexible date with
        | none =>
          rw [hpd] at h
          exact htmlScan_ids_digit dept bt lu last rest r h
        | some d =>
          rw [hpd] at h
          simp only at h
          rcases List.mem_cons.mp h with rfl | hmem
          · exact recoverHtmlId_digits cell link pid hid
          · exact htmlScan_ids_digit dept bt lu last rest r hmem

/-- C10: every record the HTML extraction path produces has an all-digit
post_id; when the cleaned id cell is not all digits the id is recovered as the
leftmost `(idx|id|no|seq|docSn)=digits` match in the record's link; a record
with no recoverable id is dropped, leaving the rest of the scan unchanged. -/
theorem c10_html_post_id_invariant (dept : Department) (bt lu last : String) :
    (∀ rows r, r ∈ (htmlScan dept bt lu last rows).1 → pyIsDigit r.post_id = true) ∧
    (∀ cell link : String, pyIsDigit (cleanText cell) = false →
      recoverHtmlId cell link = findIdInUrl link.data) ∧
    (∀ rows (cell t link date : String), recoverHtmlId cell link = none →
      htmlScan dept bt lu last ((cell, t, link, date) :: rows) =
        htmlScan dept bt lu last rows) := by
  refine ⟨htmlScan_ids_digit dept bt lu last, fun cell link hnd => ?_, ?_⟩
  · unfold recoverHtmlId
    rw [if_neg (by simp [hnd])]
  · intro rows cell t link date hnone
    rw [htmlScan, hnone]

def c10row : NoticeRow :=
  ⟨3, "undergrad", "55", "T", "https://ex.x/v.do?no=55", ⟨2024, 5, 1, 0, 0, 0, 0, none⟩, none⟩

def c10dept : Department :=
  ⟨3, 1, "d", "D", "https://ex.x", "normal_dept", none, none, none, none⟩

/-- C10 witness: the invariant applied to a concrete scan whose id cell reads
`공지` and whose id is recovered from the link. -/
theorem c10_html_post_id_witness : pyIsDigit c10row.post_id = true :=
  (c10_html_post_id_invariant c10dept "undergrad" "https://ex.x/n" "0").1
    [("공지", "T", "/v.do?no=55", "2024-05-01")] c10row (by decide)

/-! ## Shared demonstration scenario

A department whose undergrad template is `https://ex.x/n?page=\x7bpage\x7d`,
so page 1 materializes to `https://ex.x/n?page=1` and page 2 to
`https://ex.x/n?page=2`. -/

def demoDept : Department :=
  ⟨7, 1, "d", "Dept", "https://ex.x", "normal_dept", none,
    some "https://ex.x/n?page=\x7bpage\x7d", none, none⟩

def demoDate : PyDateTime := ⟨2024, 5, 1, 0, 0, 0, 0, none⟩

/-- A well-formed decoded JSON listing item with numeric id `n`. -/
def demoItem (n : Int) : JValue :=
  .jobj [("id", .jnum n), ("title", .jstr ("T" ++ toString n)),
         ("url", .jstr ("/v?id=" ++ toString n)), ("date", .jstr "2024-05-01")]

/-- The row the harvest produces for `demoItem n`. -/
def demoRow (n : Nat) : NoticeRow :=
  ⟨7, "undergrad", toString n, "T" ++ toString n, "https://ex.x/v?id=" ++ toString n,
    demoDate, none⟩

/-- A previously persisted row holding the cursor value "100". -/
def demoRow0 : NoticeRow := ⟨7, "undergrad", "100", "t0", "u0", demoDate, none⟩

/-- The newest-first page of C1: ids 105, 104, 103, 99. -/
def demoJson1 : JValue := .jarr [demoItem 105, demoItem 104, demoItem 103, demoItem 99]

/-! ## Claims C1, C3, C7, C8 -/

/-- A raw listing record as it appears in a well-formed structured response. -/
structure RawPost where
  pid : String
  title : String
  url : String
  date : String

def rawToJ (r : RawPost) : JValue :=
  .jobj [("id", .jstr r.pid), ("title", .jstr r.title),
         ("url", .jstr r.url), ("date", .jstr r.date)]

/-- Field well-formedness: the id is strip-stable and non-empty, the title is
clean-text-stable and non-empty, url and date cells are non-empty. -/
def wfFields (r : RawPost) : Prop :=
  pyStrip r.pid = r.pid ∧ r.pid ≠ "" ∧ cleanText r.title = r.title ∧ r.title ≠ "" ∧
    r.url ≠ "" ∧ r.date ≠ ""

/-- Full well-formedness: fields present and the date parseable. -/
def wfRaw (r : RawPost) : Prop :=
  wfFields r ∧ (parseDateFlexible r.date).isSome = true

/-- The row the JSON scan produces for a kept raw record. -/
def keptOfRaw (dept : Department) (bt lu : String) (r : RawPost) : NoticeRow :=
  ⟨dept.id, bt, r.pid, r.title, urljoin lu r.url,
    (parseDateFlexible r.date).getD ⟨1900, 1, 1, 0, 0, 0, 0, none⟩, mkSourceName dept bt⟩

theorem parseDateFlexible_empty : parseDateFlexible "" = none := rfl

theorem jsonScan_wf (dept : Department) (bt lu c : String) :
    ∀ rs : List RawPost, (∀ r ∈ rs, wfRaw r) →
    jsonScan dept bt lu c (rs.map rawToJ) =
      ((rs.takeWhile fun r => !stopsAtCursor r.pid c).map (keptOfRaw dept bt lu),
        rs.any fun r => stopsAtCursor r.pid c)
  | [], _ => rfl
  | r :: rs, hwf => by
    obtain ⟨⟨hstrip, hpid, hclean, htitle, hurl, hdate⟩, hparse⟩ :=
      hwf r (List.mem_cons_self r rs)
    have hdne : r.date ≠ "" := by
      intro he
      rw [he, parseDateFlexible_empty] at hparse
      simp at hparse
    have ih := jsonScan_wf dept bt lu c rs (fun x hx => hwf x (List.mem_cons_of_mem _ hx))
    show jsonScan dept bt lu c (rawToJ r :: rs.map rawToJ) = _
    simp only [jsonScan, rawToJ, jGetD, jLookup, Option.getD, pyStr, pyTruthy, jStrVal,
      parseDateJ, String.reduceEq, reduceIte]
    rw [hstrip, hclean]
    rw [if_neg (by simp [hpid, htitle, hurl, hdne])]
    by_cases hstop : stopsAtCursor r.pid c = true
    · simp [hstop]
    · obtain ⟨d, hd⟩ := Option.isSome_iff_exists.mp hparse
      simp [hstop, hd, ih, keptOfRaw]

/-- C1: scanning a well-formed structured page stops at the first record whose
id is not newer than the cursor under the best-effort comparison, keeps
exactly the records scanned before the stop point, and flags the stop; with
cursor "100" and a newest-first page of ids 105, 104, 103, 99, the harvest
persists exactly the rows 105, 104, 103 and requests only the page-1 URL. -/
theorem c1_incremental_stop (dept : Department) (bt lu c : String) (rs : List RawPost)
    (hwf : ∀ r ∈ rs, wfRaw r) :
    jsonScan dept bt lu c (rs.map rawToJ) =
      ((rs.takeWhile fun r => !stopsAtCursor r.pid c).map (keptOfRaw dept bt lu),
        rs.any fun r => stopsAtCursor r.pid c) ∧
    crawl_board demoDept "undergrad" [demoRow0] (some demoJson1) none =
      ([demoRow0, demoRow 105, demoRow 104, demoRow 103], ["https://ex.x/n?page=1"], 3) :=
  ⟨jsonScan_wf dept bt lu c rs hwf, by rfl⟩

/-- C1 witness: the theorem applied to the concrete C1 page with cursor "100";
the scan keeps 105, 104, 103 and sets the stop flag. -/
theorem c1_incremental_stop_witness :
    jsonScan demoDept "undergrad" "https://ex.x/n?page=1" "100"
      ([⟨"105", "T105", "/v?id=105", "2024-05-01"⟩, ⟨"104", "T104", "/v?id=104", "2024-05-01"⟩,
        ⟨"103", "T103", "/v?id=103", "2024-05-01"⟩,
        ⟨"99", "T99", "/v?id=99", "2024-05-01"⟩].map rawToJ) =
      (([(⟨"105", "T105", "/v?id=105", "2024-05-01"⟩ : RawPost),
         ⟨"104", "T104", "/v?id=104", "2024-05-01"⟩,
         ⟨"103", "T103", "/v?id=103", "2024-05-01"⟩,
         ⟨"99", "T99", "/v?id=99", "2024-05-01"⟩].takeWhile
           fun r => !stopsAtCursor r.pid "100").map
        (keptOfRaw demoDept "undergrad" "https://ex.x/n?page=1"),
       [(⟨"105", "T105", "/v?id=105", "2024-05-01"⟩ : RawPost),
        ⟨"104", "T104", "/v?id=104", "2024-05-01"⟩,
        ⟨"103", "T103", "/v?id=103", "2024-05-01"⟩,
        ⟨"99", "T99", "/v?id=99", "2024-05-01"⟩].any fun r => stopsAtCursor r.pid "100") :=
  (c1_incremental_stop demoDept "undergrad" "https://ex.x/n?page=1" "100" _
    (by
      intro r hr
      fin_cases hr <;> exact ⟨⟨rfl, by decide, rfl, by decide, by decide, by decide⟩, by decide⟩)).1

/-- The listing URLs `crawl_board` requests: the page-1 URL alone whenever the
template resolves, nothing otherwise. -/
theorem crawl_board_requested (dept : Department) (bt : String) (db : List NoticeRow)
    (jsonRes : Option JValue) (htmlRes : Option HtmlArrays) :
    (crawl_board dept bt db jsonRes htmlRes).2.1 =
      match get_notice_list_url dept bt 1 with
      | none => []
      | some u => [u] := by
  unfold crawl_board
  cases h : get_notice_list_url dept bt 1 with
  | none => simp only [h]
  | some lu =>
    simp only [h]
    split <;> rfl

/-- C3 counterexample: a page-1 scan that yields records with no stop
condition fired, after which the harvester still issues no request for
page 2 — the pagination walk the claim describes does not exist. -/
theorem c3_pagination_counterexample :
    (parseNoticePageContent demoDept "undergrad" "https://ex.x/n?page=1" "0"
      (some (.jarr [demoItem 105, demoItem 104])) none).2 = false ∧
    (parseNoticePageContent demoDept "undergrad" "https://ex.x/n?page=1" "0"
      (some (.jarr [demoItem 105, demoItem 104])) none).1 ≠ [] ∧
    (crawl_board demoDept "undergrad" [] (some (.jarr [demoItem 105, demoItem 104])) none).2.1 =
      ["https://ex.x/n?page=1"] ∧
    get_notice_list_url demoDept "undergrad" 2 = some "https://ex.x/n?page=2" ∧
    "https://ex.x/n?page=2" ∉
      (crawl_board demoDept "undergrad" [] (some (.jarr [demoItem 105, demoItem 104])) none).2.1 := by
  exact ⟨rfl, by decide, rfl, rfl, by decide⟩

/-- C3 amended: for every pair the harvest controller requests at most one
listing page, and every requested URL is the materialized page-1 URL; the
page cap is in effect 1 and no next page is ever requested. -/
theorem c3_first_page_only (dept : Department) (bt : String) (db : List NoticeRow)
    (jsonRes : Option JValue) (htmlRes : Option HtmlArrays) :
    (crawl_board dept bt db jsonRes htmlRes).2.1.length ≤ 1 ∧
    ∀ u ∈ (crawl_board dept bt db jsonRes htmlRes).2.1,
      get_notice_list_url dept bt 1 = some u := by
  rw [crawl_board_requested dept bt db jsonRes htmlRes]
  cases hurl : get_notice_list_url dept bt 1 with
  | none => simp
  | some lu => simp

/-- C3 witness: the amended theorem applied to the concrete scenario of the
counterexample. -/
theorem c3_first_page_only_witness :
    get_notice_list_url demoDept "undergrad" 1 = some "https://ex.x/n?page=1" :=
  (c3_first_page_only demoDept "undergrad" []
      (some (.jarr [demoItem 105, demoItem 104])) none).2
    "https://ex.x/n?page=1" (by decide)

/-! ## Claim C7: shape failure invokes the fallback -/

def c7json : JValue := .jobj [("posts", .jstr "not-a-list")]

def c7html : HtmlArrays :=
  ⟨["1", "2", "3"], ["A", "B", "C"], ["/v?id=1", "/v?id=2", "/v?id=3"],
    ["2024-05-01", "2024-05-02", "2024-05-03"]⟩

/-- C7: a structured fetch that succeeds at transport level but decodes to
`posts = "not-a-list"` fails the shape check; the extractor then behaves
exactly as on a structured-fetch failure (the HTML fallback runs), and with a
fallback yielding 3 well-formed rows exactly 3 records are persisted. -/
theorem c7_shape_check_fallback :
    structuredPosts c7json = none ∧
    (∀ (dept : Department) (bt lu last : String) (htmlRes : Option HtmlArrays),
      parseNoticePageContent dept bt lu last (some c7json) htmlRes =
        parseNoticePageContent dept bt lu last none htmlRes) ∧
    crawl_board demoDept "undergrad" [] (some c7json) (some c7html) =
      ([⟨7, "undergrad", "1", "A", "https://ex.x/v?id=1", ⟨2024, 5, 1, 0, 0, 0, 0, none⟩, none⟩,
        ⟨7, "undergrad", "2", "B", "https://ex.x/v?id=2", ⟨2024, 5, 2, 0, 0, 0, 0, none⟩, none⟩,
        ⟨7, "undergrad", "3", "C", "https://ex.x/v?id=3", ⟨2024, 5, 3, 0, 0, 0, 0, none⟩, none⟩],
       ["https://ex.x/n?page=1"], 3) :=
  ⟨rfl, fun _ _ _ _ _ => rfl, by rfl⟩

/-! ## Claim C8: dropped-record resilience -/

theorem jsonScan_no_stop (dept : Department) (bt lu c : String) :
    ∀ rs : List RawPost, (∀ r ∈ rs, wfFields r) →
      (∀ r ∈ rs, stopsAtCursor r.pid c = false) →
    jsonScan dept bt lu c (rs.map rawToJ) =
      ((rs.filter fun r => (parseDateFlexible r.date).isSome).map (keptOfRaw dept bt lu), false)
  | [], _, _ => rfl
  | r :: rs, hwf, hns => by
    obtain ⟨hstrip, hpid, hclean, htitle, hurl, hdate⟩ := hwf r (List.mem_cons_self r rs)
    have ih := jsonScan_no_stop dept bt lu c rs
      (fun x hx => hwf x (List.mem_cons_of_mem _ hx))
      (fun x hx => hns x (List.mem_cons_of_mem _ hx))
    have hstop := hns r (List.mem_cons_self r rs)
    show jsonScan dept bt lu c (rawToJ r :: rs.map rawToJ) = _
    simp only [jsonScan, rawToJ, jGetD, jLookup, Option.getD, pyStr, pyTruthy, jStrVal,
      parseDateJ, String.reduceEq, reduceIte]
    rw [hstrip, hclean]
    rw [if_neg (by simp [hpid, htitle, hurl, hdate])]
    rw [if_neg (by simp [hstop])]
    cases hd : parseDateFlexible r.date with
    | none => simp [ih, hd]
    | some d => simp [ih, hd, keptOfRaw]

def c8badItem : JValue :=
  .jobj [("id", .jnum 103), ("title", .jstr "T103"), ("url", .jstr "/v?id=103"),
         ("date", .jstr "-")]

def c8json : JValue :=
  .jarr [demoItem 105, demoItem 104, c8badItem, demoItem 102, demoItem 101]

/-- C8: a record whose date fails to parse is dropped while every other record
of the scanned page is kept; concretely, a page of 5 raw entries of which one
has the unparseable date "-" yields exactly the other 4 rows persisted. -/
theorem c8_dropped_record (dept : Department) (bt lu c : String) (rs : List RawPost)
    (h1 : ∀ r ∈ rs, wfFields r) (h2 : ∀ r ∈ rs, stopsAtCursor r.pid c = false) :
    jsonScan dept bt lu c (rs.map rawToJ) =
      ((rs.filter fun r => (parseDateFlexible r.date).isSome).map (keptOfRaw dept bt lu),
        false) ∧
    crawl_board demoDept "undergrad" [] (some c8json) none =
      ([demoRow 105, demoRow 104, demoRow 102, demoRow 101], ["https://ex.x/n?page=1"], 4) :=
  ⟨jsonScan_no_stop dept bt lu c rs h1 h2, by rfl⟩

/-- C8 witness: the theorem applied to a two-record page whose second record
has the unparseable date "-"; only the first record survives. -/
theorem c8_dropped_record_witness :
    jsonScan demoDept "undergrad" "https://ex.x/n?page=1" "0"
      ([⟨"5", "T5", "/v?id=5", "2024-05-01"⟩, ⟨"4", "T4", "/v?id=4", "-"⟩].map rawToJ) =
      (([(⟨"5", "T5", "/v?id=5", "2024-05-01"⟩ : RawPost), ⟨"4", "T4", "/v?id=4", "-"⟩].filter
          fun r => (parseDateFlexible r.date).isSome).map
        (keptOfRaw demoDept "undergrad" "https://ex.x/n?page=1"), false) :=
  (c8_dropped_record demoDept "undergrad" "https://ex.x/n?page=1" "0" _
    (by intro r hr; fin_cases hr <;> exact ⟨rfl, by decide, rfl, by decide, by decide, by decide⟩)
    (by intro r hr; fin_cases hr <;> decide)).1

/-! ## Claim C4: idempotence of re-harvesting

The proof rests on one structural fact: whether a record is skipped before or
after the cursor comparison is independent of the cursor, so the first record
two scans with different cursors both keep is the same record. -/

/-- The required-field check of a JSON item (cursor-independent). -/
def preOk (item : JValue) : Bool :=
  pyStrip (pyStr (jGetD item "id" (.jstr ""))) ≠ "" &&
    cleanText (pyStr (jGetD item "title" (.jstr ""))) ≠ "" &&
    pyTruthy (jGetD item "url" (.jstr "")) && pyTruthy (jGetD item "date" (.jstr ""))

def itemPid (item : JValue) : String := pyStrip (pyStr (jGetD item "id" (.jstr "")))

def mkJsonRow (dept : Department) (bt lu : String) (item : JValue) (d : PyDateTime) : NoticeRow :=
  ⟨dept.id, bt, itemPid item, cleanText (pyStr (jGetD item "title" (.jstr ""))),
    urljoin lu (jStrVal (jGetD item "url" (.jstr ""))), d, mkSourceName dept bt⟩

theorem jsonScan_cons (dept : Department) (bt lu c : String) (item : JValue)
    (rest : List JValue) :
    jsonScan dept bt lu c (item :: rest) =
      if !preOk item then jsonScan dept bt lu c rest
      else if stopsAtCursor (itemPid item) c then ([], true)
      else
        match parseDateJ (jGetD item "date" (.jstr "")) with
        | none => jsonScan dept bt lu c rest
        | some d =>
          (mkJsonRow dept bt lu item d :: (jsonScan dept bt lu c rest).1,
            (jsonScan dept bt lu c rest).2) := rfl

theorem jsonScan_head_stable (dept : Department) (bt lu c c' : String) :
    ∀ items : List JValue,
      (jsonScan dept bt lu c items).1 ≠ [] → (jsonScan dept bt lu c' items).1 ≠ [] →
      (jsonScan dept bt lu c items).1.head? = (jsonScan dept bt lu c' items).1.head?
  | [], h1, _ => absurd rfl h1
  | item :: rest, h1, h2 => by
    rw [jsonScan_cons dept bt lu c item rest] at h1 ⊢
    rw [jsonScan_cons dept bt lu c' item rest] at h2 ⊢
    by_cases hpre : preOk item = true
    · simp only [hpre, Bool.not_true, Bool.false_eq_true, if_false] at h1 h2 ⊢
      by_cases hs1 : stopsAtCursor (itemPid item) c = true
      · rw [if_pos hs1] at h1; exact absurd rfl h1
      · by_cases hs2 : stopsAtCursor (itemPid item) c' = true
        · rw [if_pos hs2] at h2; exact absurd rfl h2
        · rw [if_neg hs1] at h1 ⊢
          rw [if_neg hs2] at h2 ⊢
          cases hd : parseDateJ (jGetD item "date" (.jstr "")) with
          | none =>
            simp only [hd] at h1 h2 ⊢
            exact jsonScan_head_stable dept bt lu c c' rest h1 h2
          | some d => simp only [hd, List.head?_cons]
    · rw [Bool.not_eq_true] at hpre
      simp only [hpre, Bool.not_false, if_true] at h1 h2 ⊢
      exact jsonScan_head_stable dept bt lu c c' rest h1 h2

theorem htmlScan_cons (dept : Department) (bt lu c : String) (cell t link date : String)
    (rest : List (String × String × String × String)) :
    htmlScan dept bt lu c ((cell, t, link, date) :: rest) =
      match recoverHtmlId cell link with
      | none => htmlScan dept bt lu c rest
      | some pid =>
        if stopsAtCursor pid c then ([], true)
        else
          match parseDateFlexible date with
          | none => htmlScan dept bt lu c rest
          | some d =>
            (⟨dept.id, bt, pid, cleanText t, urljoin lu link, d, mkSourceName dept bt⟩ ::
                (htmlScan dept bt lu c rest).1,
              (htmlScan dept bt lu c rest).2) := rfl

theorem htmlScan_head_stable (dept : Department) (bt lu c c' : String) :
    ∀ rows : List (String × String × String × String),
      (htmlScan dept bt lu c rows).1 ≠ [] → (htmlScan dept bt lu c' rows).1 ≠ [] →
      (htmlScan dept bt lu c rows).1.head? = (htmlScan dept bt lu c' rows).1.head?
  | [], h1, _ => absurd rfl h1
  | (cell, t, link, date) :: rest, h1, h2 => by
    rw [htmlScan_cons dept bt lu c cell t link date rest] at h1 ⊢
    rw [htmlScan_cons dept bt lu c' cell t link date rest] at h2 ⊢
    cases hid : recoverHtmlId cell link with
    | none =>
      simp only [hid] at h1 h2 ⊢
      exact htmlScan_head_stable dept bt lu c c' rest h1 h2
    | some pid =>
      simp only [hid] at h1 h2 ⊢
      by_cases hs1 : stopsAtCursor pid c = true
      · rw [if_pos hs1] at h1; exact absurd rfl h1
      · by_cases hs2 : stopsAtCursor pid c' = true
        · rw [if_pos hs2] at h2; exact absurd rfl h2
        · rw [if_neg hs1] at h1 ⊢
          rw [if_neg hs2] at h2 ⊢
          cases hd : parseDateFlexible date with
          | none =>
            simp only [hd] at h1 h2 ⊢
            exact htmlScan_head_stable dept bt lu c c' rest h1 h2
          | some d => simp only [hd, List.head?_cons]

theorem parse_sel_json (dept : Department) (bt lu c : String) (data : JValue)
    (items : List JValue) (htmlRes : Option HtmlArrays)
    (hsp : structuredPosts data = some items) :
    parseNoticePageContent dept bt lu c (some data) htmlRes = jsonScan dept bt lu c items := by
  unfold parseNoticePageContent
  simp only [hsp]

theorem parse_sel_html (dept : Department) (bt lu c : String) (jsonRes : Option JValue)
    (htmlRes : Option HtmlArrays)
    (hshape : ∀ data, jsonRes = some data → structuredPosts data = none) :
    parseNoticePageContent dept bt lu c jsonRes htmlRes =
      match htmlRes with
      | none => ([], false)
      | some h => htmlScan dept bt lu c (htmlRows h) := by
  unfold parseNoticePageContent
  cases jsonRes with
  | none => simp only
  | some data => simp only [hshape data rfl]

theorem parse_head_stable (dept : Department) (bt lu c c' : String)
    (jsonRes : Option JValue) (htmlRes : Option HtmlArrays)
    (h1 : (parseNoticePageContent dept bt lu c jsonRes htmlRes).1 ≠ [])
    (h2 : (parseNoticePageContent dept bt lu c' jsonRes htmlRes).1 ≠ []) :
    (parseNoticePageContent dept bt lu c jsonRes htmlRes).1.head? =
      (parseNoticePageContent dept bt lu c' jsonRes htmlRes).1.head? := by
  have hcase : (∃ data items, jsonRes = some data ∧ structuredPosts data = some items) ∨
      (∀ data, jsonRes = some data → structuredPosts data = none) := by
    cases jsonRes with
    | none => exact .inr fun data h => by cases h
    | some data =>
      cases hsp : structuredPosts data with
      | some items => exact .inl ⟨data, items, rfl, hsp⟩
      | none => exact .inr fun d h => by cases h; exact hsp
  rcases hcase with ⟨data, items, rfl, hsp⟩ | hshape
  · rw [parse_sel_json dept bt lu c data items htmlRes hsp] at h1 ⊢
    rw [parse_sel_json dept bt lu c' data items htmlRes hsp] at h2 ⊢
    exact jsonScan_head_stable dept bt lu c c' items h1 h2
  · rw [parse_sel_html dept bt lu c jsonRes htmlRes hshape] at h1 ⊢
    rw [parse_sel_html dept bt lu c' jsonRes htmlRes hshape] at h2 ⊢
    cases htmlRes with
    | none => exact absurd rfl h1
    | some h => exact htmlScan_head_stable dept bt lu c c' (htmlRows h) h1 h2

/-- The table `crawl_board` leaves behind, as an equation. -/
theorem crawl_board_db (dept : Department) (bt : String) (db : List NoticeRow)
    (jsonRes : Option JValue) (htmlRes : Option HtmlArrays) :
    (crawl_board dept bt db jsonRes htmlRes).1 =
      match get_notice_list_url dept bt 1 with
      | none => db
      | some lu =>
        if (parseNoticePageContent dept bt lu (load_last_post_id db dept.id bt)
            jsonRes htmlRes).1.isEmpty then db
        else (bulkInsertNotices db
          (parseNoticePageContent dept bt lu (load_last_post_id db dept.id bt)
            jsonRes htmlRes).1).1 := by
  unfold crawl_board
  cases h : get_notice_list_url dept bt 1 with
  | none => simp only [h]
  | some lu =>
    simp only [h]
    split <;> rfl

theorem bulkInsert_collision (db batch : List NoticeRow) (b : NoticeRow)
    (hb : b ∈ batch) (hdb : b ∈ db) : bulkInsertNotices db batch = (db, 0) := by
  unfold bulkInsertNotices
  rw [if_neg]
  intro hcontra
  exact hcontra.2 b hb b hdb rfl

/-- C4: harvesting a pair twice against an unchanged listing is idempotent —
the second run leaves the table exactly as the first run left it — and the
table after the first run still has pairwise-distinct
(dept_id, board, post_id) identities, so re-harvesting never produces a
duplicate row. -/
theorem c4_harvest_idempotent (dept : Department) (bt : String) (db : List NoticeRow)
    (jsonRes : Option JValue) (htmlRes : Option HtmlArrays)
    (hnd : (db.map rowIdent).Nodup) :
    (crawl_board dept bt (crawl_board dept bt db jsonRes htmlRes).1 jsonRes htmlRes).1 =
      (crawl_board dept bt db jsonRes htmlRes).1 ∧
    (((crawl_board dept bt db jsonRes htmlRes).1).map rowIdent).Nodup := by
  cases hurl : get_notice_list_url dept bt 1 with
  | none =>
    have hdb1 := crawl_board_db dept bt db jsonRes htmlRes
    simp only [hurl] at hdb1
    rw [hdb1]
    exact ⟨hdb1, hnd⟩
  | some lu =>
    have hdb1 := crawl_board_db dept bt db jsonRes htmlRes
    simp only [hurl] at hdb1
    by_cases hK : (parseNoticePageContent dept bt lu (load_last_post_id db dept.id bt)
        jsonRes htmlRes).1.isEmpty = true
    · rw [if_pos hK] at hdb1
      rw [hdb1]
      exact ⟨hdb1, hnd⟩
    · rw [if_neg hK] at hdb1
      by_cases hok : ((((parseNoticePageContent dept bt lu (load_last_post_id db dept.id bt)
            jsonRes htmlRes).1).map rowIdent).Nodup ∧
          ∀ b ∈ (parseNoticePageContent dept bt lu (load_last_post_id db dept.id bt)
            jsonRes htmlRes).1, ∀ r ∈ db, rowIdent b ≠ rowIdent r)
      · -- the batch was inserted: the first run extended the table
        have hins : bulkInsertNotices db
            (parseNoticePageContent dept bt lu (load_last_post_id db dept.id bt)
              jsonRes htmlRes).1 =
            (db ++ (parseNoticePageContent dept bt lu (load_last_post_id db dept.id bt)
              jsonRes htmlRes).1,
             ((parseNoticePageContent dept bt lu (load_last_post_id db dept.id bt)
              jsonRes htmlRes).1).length) := by
          unfold bulkInsertNotices
          rw [if_pos hok]
        rw [hins] at hdb1
        set K := (parseNoticePageContent dept bt lu (load_last_post_id db dept.id bt)
          jsonRes htmlRes).1 with hKdef
        have hnd1 : ((db ++ K).map rowIdent).Nodup := by
          rw [List.map_append, List.nodup_append]
          refine ⟨hnd, hok.1, ?_⟩
          intro x hx hy
          rcases List.mem_map.mp hx with ⟨rx, hrx, hxe⟩
          rcases List.mem_map.mp hy with ⟨ry, hry, hye⟩
          exact hok.2 ry hry rx hrx (hye.trans hxe.symm)
        refine ⟨?_, hdb1 ▸ hnd1⟩
        -- second run: either the scan keeps nothing, or its first kept record
        -- is the first record the first run kept, which is already stored
        have hdb2 := crawl_board_db dept bt (db ++ K) jsonRes htmlRes
        simp only [hurl] at hdb2
        rw [hdb1, hdb2]
        by_cases hK2 : (parseNoticePageContent dept bt lu
            (load_last_post_id (db ++ K) dept.id bt) jsonRes htmlRes).1.isEmpty = true
        · rw [if_pos hK2]
        · rw [if_neg hK2]
          have hKne : K ≠ [] := by
            intro he
            rw [he] at hK
            exact hK rfl
          have hK2ne : (parseNoticePageContent dept bt lu
              (load_last_post_id (db ++ K) dept.id bt) jsonRes htmlRes).1 ≠ [] := by
            intro he
            rw [he] at hK2
            exact hK2 rfl
          have hKne' : (parseNoticePageContent dept bt lu (load_last_post_id db dept.id bt)
              jsonRes htmlRes).1 ≠ [] := by
            rw [← hKdef]
            exact hKne
          have hhead := parse_head_stable dept bt lu
            (load_last_post_id (db ++ K) dept.id bt) (load_last_post_id db dept.id bt)
            jsonRes htmlRes hK2ne hKne'
          obtain ⟨b, hbh⟩ : ∃ b, (parseNoticePageContent dept bt lu
              (load_last_post_id (db ++ K) dept.id bt) jsonRes htmlRes).1.head? = some b := by
            cases hc : (parseNoticePageContent dept bt lu
                (load_last_post_id (db ++ K) dept.id bt) jsonRes htmlRes).1 with
            | nil => exact absurd hc hK2ne
            | cons x xs => exact ⟨x, rfl⟩
          have hbK2 : b ∈ (parseNoticePageContent dept bt lu
              (load_last_post_id (db ++ K) dept.id bt) jsonRes htmlRes).1 :=
            List.mem_of_mem_head? hbh
          have hbK : b ∈ K := by
            rw [hbh] at hhead
            rw [hKdef]
            exact List.mem_of_mem_head? hhead.symm
          have hbdb1 : b ∈ db ++ K := List.mem_append_right db hbK
          rw [bulkInsert_collision (db ++ K) _ b hbK2 hbdb1]
      · -- the batch collided already in the first run: nothing was inserted
        have hins : bulkInsertNotices db
            (parseNoticePageContent dept bt lu (load_last_post_id db dept.id bt)
              jsonRes htmlRes).1 =
            (db, 0) := by
          unfold bulkInsertNotices
          rw [if_neg hok]
        rw [hins] at hdb1
        rw [hdb1]
        exact ⟨hdb1, hnd⟩

/-- C4 witness: the idempotence theorem applied to the concrete C1 scenario
(one stored row with id 100, the 105/104/103/99 page). -/
theorem c4_harvest_idempotent_witness :
    (crawl_board demoDept "undergrad"
        (crawl_board demoDept "undergrad" [demoRow0] (some demoJson1) none).1
        (some demoJson1) none).1 =
      (crawl_board demoDept "undergrad" [demoRow0] (some demoJson1) none).1 ∧
    (((crawl_board demoDept "undergrad" [demoRow0] (some demoJson1) none).1).map
      rowIdent).Nodup :=
  c4_harvest_idempotent demoDept "undergrad" [demoRow0] (some demoJson1) none (by decide)

end Cnu
